import Mathlib

/-!
Verification of the Workday RaaS mock API (`src/app.py`): a Flask service
exposing three JSON-file-backed collections (`employees`, `contractors`,
`conversion`) with a bearer-token access gate, an envelope codec
(`extract_entries` / `rewrap`), a key resolver, a record normalizer
(`normalize_for_saviynt`) and CRUD handlers.

Python JSON values are embedded as the inductive `Json`; Python dicts are
association lists (`Record`) with insertion-order semantics faithful to
CPython dicts: lookup finds the first binding, assignment replaces in
place or appends a fresh key at the end.
-/

/-- A JSON-compatible Python value (result of `json.load` / `request.get_json`). -/
inductive Json where
  | null
  | bool (b : Bool)
  | num (n : Int)
  | str (s : String)
  | arr (xs : List Json)
  | obj (fs : List (String × Json))

/-- A Python dict with string keys: an insertion-ordered association list. -/
abbrev Record := List (String × Json)

/-- `k in rec` on a Python dict. -/
def hasField (rec : Record) (k : String) : Bool :=
  rec.any (fun p => p.1 == k)

/-- `rec.get(k)`: the first binding of `k`, or Python `None` when absent. -/
def getField (rec : Record) (k : String) : Json :=
  match rec.find? (fun p => p.1 == k) with
  | some p => p.2
  | none => Json.null

/-- `rec[k] = v` on a Python dict: replace the binding in place if the key
exists, otherwise append it at the end. -/
def setField : Record → String → Json → Record
  | [], k, v => [(k, v)]
  | (k', v') :: rest, k, v =>
      if k' == k then (k, v) :: rest else (k', v') :: setField rest k v

/-- `rec.update(payload)`: set each payload binding in order (shallow merge). -/
def updateRecord (rec : Record) : Record → Record
  | [] => rec
  | (k, v) :: rest => updateRecord (setField rec k v) rest

/-- Python `repr` of a string (single-quoted; quotes and backslashes escaped). -/
def pyReprStr (s : String) : String :=
  "'" ++ String.join (s.toList.map (fun c =>
    if c == '\\' then "\\\\"
    else if c == '\'' then "\\'"
    else String.singleton c)) ++ "'"

mutual
/-- Python `repr` of a JSON-compatible value. -/
def pyRepr : Json → String
  | Json.null => "None"
  | Json.bool true => "True"
  | Json.bool false => "False"
  | Json.num n => toString n
  | Json.str s => pyReprStr s
  | Json.arr xs => "[" ++ String.intercalate ", " (pyReprList xs) ++ "]"
  | Json.obj fs => "\x7b" ++ String.intercalate ", " (pyReprFields fs) ++ "\x7d"

def pyReprList : List Json → List String
  | [] => []
  | x :: xs => pyRepr x :: pyReprList xs

def pyReprFields : List (String × Json) → List String
  | [] => []
  | (k, v) :: fs => (pyReprStr k ++ ": " ++ pyRepr v) :: pyReprFields fs
end

/-- Python `str` of a JSON-compatible value (`str` is identity on strings,
`repr` elsewhere; in particular `str(None) = "None"`). -/
def pyStr : Json → String
  | Json.str s => s
  | v => pyRepr v

/-- Python truthiness of a JSON-compatible value. -/
def pyTruthy : Json → Bool
  | Json.null => false
  | Json.bool b => b
  | Json.num n => n != 0
  | Json.str s => s != ""
  | Json.arr xs => !xs.isEmpty
  | Json.obj fs => !fs.isEmpty

-- ==============================
-- CONFIG (src/app.py lines 10-16)
-- ==============================

def ACCESS_TOKEN : String := "mysecrettoken123"

def AUTO_ENSURE_ISACTIVE : Bool := true

def AUTO_CLEAN_TERMINATION_DATE : Bool := true

-- ==============================
-- ENVELOPE CODEC (src/app.py lines 95-112)
-- ==============================

/-- `extract_entries(obj)`: `(entries_list, root_wrapper_key or None)`.
A mapping containing `"Report_Entry"` bound to a list yields that list with
the wrapper key; a bare list yields itself with no key; any other shape
normalizes to the empty list with no key. -/
def extract_entries (obj : Json) : List Json × Option String :=
  match obj with
  | Json.obj fs =>
      if hasField fs "Report_Entry" then
        match getField fs "Report_Entry" with
        | Json.arr xs => (xs, some "Report_Entry")
        | _ => ([], none)
      else ([], none)
  | Json.arr xs => (xs, none)
  | _ => ([], none)

/-- `rewrap(entries, wrapper_key)`: put entries back into the original
structure (Python tests the wrapper key for truthiness). -/
def rewrap (entries : List Json) (wrapperKey : Option String) : Json :=
  match wrapperKey with
  | some k => if k == "" then Json.arr entries else Json.obj [(k, Json.arr entries)]
  | none => Json.arr entries

-- ==============================
-- KEY RESOLVER (src/app.py lines 157-159, 207-209, 252-254)
-- ==============================

/-- `any(k in rec for rec in entries)`. -/
def fieldPresent (entries : List Record) (k : String) : Bool :=
  entries.any (fun rec => hasField rec k)

/-- `next((k for k in key_candidates if any(k in rec for rec in entries)), default)`:
the first candidate present in some record, else the hardcoded default. -/
def resolveKey (entries : List Record) (candidates : List String) (default : String) : String :=
  match candidates.find? (fieldPresent entries) with
  | some k => k
  | none => default

/-- Contractor candidate list (src/app.py line 208). -/
def contractorCandidates : List String := ["employeeID", "Worker_ID", "contractorID"]

/-- Conversion candidate list (src/app.py line 253). -/
def conversionCandidates : List String := ["contractorID", "Worker_ID", "employeeID"]

/-- Contractor key choice (src/app.py line 209). -/
def contractorKeyName (entries : List Record) : String :=
  resolveKey entries contractorCandidates "employeeID"

/-- Conversion key choice (src/app.py line 254). -/
def conversionKeyName (entries : List Record) : String :=
  resolveKey entries conversionCandidates "contractorID"

/-- Employee key choice (src/app.py line 159): the constant `"Worker_ID"`,
ignoring the loaded records. -/
def employeeKeyName (_ : List Record) : String := "Worker_ID"

-- ==============================
-- RECORD NORMALIZER (src/app.py lines 114-127)
-- ==============================

/-- Termination-date cleanup on one record: `rec.get("Termination_Date")`
equal (as Python `==`) to `None` or `"NA"` is overwritten with `""`. -/
def cleanTerminationDate (rec : Record) : Record :=
  match getField rec "Termination_Date" with
  | Json.null => setField rec "Termination_Date" (Json.str "")
  | Json.str s =>
      if s == "NA" then setField rec "Termination_Date" (Json.str "") else rec
  | _ => rec

/-- Active-flag default on one record: an `IsActive` that is missing, `None`
or `""` becomes the string `"true"`. -/
def ensureIsActive (rec : Record) : Record :=
  if !hasField rec "IsActive" then setField rec "IsActive" (Json.str "true")
  else match getField rec "IsActive" with
  | Json.null => setField rec "IsActive" (Json.str "true")
  | Json.str s => if s == "" then setField rec "IsActive" (Json.str "true") else rec
  | _ => rec

/-- One iteration of the `normalize_for_saviynt` loop on a single record:
the termination-date rule, then the active-flag rule, each behind its toggle. -/
def shapeRecord (cleanTD ensureIA : Bool) (rec : Record) : Record :=
  let rec1 := if cleanTD then cleanTerminationDate rec else rec
  if ensureIA then ensureIsActive rec1 else rec1

/-- `normalize_for_saviynt(entries)`, parametrized by the two module-level
configuration toggles that the source reads. -/
def normalize_for_saviynt (cleanTD ensureIA : Bool) (entries : List Record) : List Record :=
  entries.map (shapeRecord cleanTD ensureIA)

/-- The termination-date rule's trigger: `rec.get("Termination_Date") in (None, "NA")`. -/
def badTerminationDate (rec : Record) : Bool :=
  match getField rec "Termination_Date" with
  | Json.null => true
  | Json.str s => s == "NA"
  | _ => false

/-- The active-flag rule's trigger:
`"IsActive" not in rec or rec.get("IsActive") in (None, "")`. -/
def badIsActive (rec : Record) : Bool :=
  !hasField rec "IsActive" ||
    (match getField rec "IsActive" with
     | Json.null => true
     | Json.str s => s == ""
     | _ => false)

-- ==============================
-- CRUD ENGINE (src/app.py lines 133-269)
-- ==============================

/-- The document produced by rewrapping a record sequence. -/
def docOfRecords (entries : List Record) (wk : Option String) : Json :=
  rewrap (entries.map Json.obj) wk

/-- `str(rec.get(key_name)) == str(emp_id)` (the path identifier is a string,
so `str` is identity on it). -/
def matchKey (key eid : String) (rec : Record) : Bool :=
  pyStr (getField rec key) == eid

/-- The PUT loop: merge the payload into the first record whose key value
string-matches the identifier; `none` when no record matches. -/
def putEntries (key eid : String) (payload : Record) : List Record → Option (List Record)
  | [] => none
  | rec :: rest =>
      if matchKey key eid rec then some (updateRecord rec payload :: rest)
      else (putEntries key eid payload rest).map (rec :: ·)

/-- Outcome of a mutating handler: the HTTP status and the document passed to
`save_data`, when a save happens at all. -/
structure MutResult where
  status : Nat
  saved : Option Json

/-- Generic PUT handler body shared by the three collections
(src/app.py lines 162-172, 211-218, 256-263). -/
def putH (key : String) (entries : List Record) (wk : Option String)
    (eid : String) (payload : Record) : MutResult :=
  match putEntries key eid payload entries with
  | some newEntries => ⟨200, some (docOfRecords newEntries wk)⟩
  | none => ⟨404, none⟩

/-- Generic DELETE handler body shared by the three collections
(src/app.py lines 174-179, 220-224, 265-269). -/
def deleteH (key : String) (entries : List Record) (wk : Option String)
    (eid : String) : MutResult :=
  let newEntries := entries.filter (fun rec => !matchKey key eid rec)
  if newEntries.length != entries.length then ⟨200, some (docOfRecords newEntries wk)⟩
  else ⟨404, none⟩

/-- `PUT /employees/<emp_id>`. -/
def employeePut (entries : List Record) (wk : Option String) (eid : String)
    (payload : Record) : MutResult :=
  putH (employeeKeyName entries) entries wk eid payload

/-- `PUT /contractors/<emp_id>`. -/
def contractorPut (entries : List Record) (wk : Option String) (eid : String)
    (payload : Record) : MutResult :=
  putH (contractorKeyName entries) entries wk eid payload

/-- `PUT /conversion/<contractor_id>`. -/
def conversionPut (entries : List Record) (wk : Option String) (eid : String)
    (payload : Record) : MutResult :=
  putH (conversionKeyName entries) entries wk eid payload

/-- `DELETE /employees/<emp_id>`. -/
def employeeDelete (entries : List Record) (wk : Option String) (eid : String) : MutResult :=
  deleteH (employeeKeyName entries) entries wk eid

/-- `DELETE /contractors/<emp_id>`. -/
def contractorDelete (entries : List Record) (wk : Option String) (eid : String) : MutResult :=
  deleteH (contractorKeyName entries) entries wk eid

/-- `DELETE /conversion/<contractor_id>`. -/
def conversionDelete (entries : List Record) (wk : Option String) (eid : String) : MutResult :=
  deleteH (conversionKeyName entries) entries wk eid

/-- `GET /employees` response: normalize (under the configured toggles), rewrap. -/
def employeesGet (entries : List Record) (wk : Option String) : Json :=
  docOfRecords (normalize_for_saviynt AUTO_CLEAN_TERMINATION_DATE AUTO_ENSURE_ISACTIVE entries) wk

/-- `GET /contractors` response: normalize (under the configured toggles), rewrap. -/
def contractorsGet (entries : List Record) (wk : Option String) : Json :=
  docOfRecords (normalize_for_saviynt AUTO_CLEAN_TERMINATION_DATE AUTO_ENSURE_ISACTIVE entries) wk

/-- `GET /conversion` response: the extracted entries rewrapped, unshaped. -/
def conversionGet (entries : List Json) (wk : Option String) : Json :=
  rewrap entries wk

/-- `request.get_json(force=True, silent=True) or {}`: `none` models an
absent or malformed body (silent parse failure); a falsy parsed value also
falls back to the empty dict. -/
def parseBody (body : Option Json) : Json :=
  match body with
  | none => Json.obj []
  | some v => if pyTruthy v then v else Json.obj []

/-- Generic POST handler body (src/app.py lines 144-148, 195-198, 240-243):
append the parsed record, persist under the original wrapper key, respond 201
with the created record. Returns (status, saved document, response data). -/
def postH (entries : List Json) (wk : Option String) (body : Option Json) :
    Nat × Json × Json :=
  let newItem := parseBody body
  (201, rewrap (entries ++ [newItem]) wk, newItem)

-- ==============================
-- ACCESS GATE (src/app.py lines 22-42)
-- ==============================

/-- What the `require_token` decorator does with a request. -/
inductive GateResult where
  | unauthorized   -- 401, "Missing access token"
  | forbidden      -- 403, "Invalid access token"
  | proceed        -- the wrapped handler runs
deriving DecidableEq

/-- Python `str.isspace` on the characters `strip` removes. -/
def pyIsSpace (c : Char) : Bool :=
  c == ' ' || c == '\t' || c == '\n' || c == '\r' || c == '\x0b' || c == '\x0c'

def listIsPrefix : List Char → List Char → Bool
  | [], _ => true
  | _ :: _, [] => false
  | c :: cs, d :: ds => c == d && listIsPrefix cs ds

/-- Python `s.startswith(p)` (on code points). -/
def pyStartsWith (s p : String) : Bool := listIsPrefix p.toList s.toList

/-- Python `s[n:]` (on code points). -/
def pyDrop (s : String) (n : Nat) : String := ⟨s.toList.drop n⟩

/-- Python `s.strip()`. -/
def pyStrip (s : String) : String :=
  ⟨((s.toList.dropWhile pyIsSpace).reverse.dropWhile pyIsSpace).reverse⟩

/-- The token a request carries, per the extraction in `require_token`: the
`Authorization` header's remainder after `"Bearer "` (stripped), falling back
to the `access_token` query parameter when the header yields nothing or an
empty string; `none` when neither source yields a non-empty token (Python's
`if not token` treats `None` and `""` alike). -/
def extractToken (authHeader : String) (queryTok : Option String) : Option String :=
  let t1 : Option String :=
    if pyStartsWith authHeader "Bearer " then some (pyStrip (pyDrop authHeader 7)) else none
  let t2 : Option String :=
    match t1 with
    | some s => if s == "" then queryTok else some s
    | none => queryTok
  match t2 with
  | some s => if s == "" then none else some s
  | none => none

/-- `require_token`: 401 when no token, 403 when a token mismatches the
configured `ACCESS_TOKEN`, otherwise run the handler. -/
def require_token (authHeader : String) (queryTok : Option String) : GateResult :=
  match extractToken authHeader queryTok with
  | none => GateResult.unauthorized
  | some t => if t == ACCESS_TOKEN then GateResult.proceed else GateResult.forbidden

/-- A document shape the envelope codec recognizes losslessly or as a bare
list: a list, or a mapping containing `"Report_Entry"` bound to a list. -/
def recognizedShape (d : Json) : Bool :=
  match d with
  | Json.arr _ => true
  | Json.obj fs =>
      hasField fs "Report_Entry" &&
        (match getField fs "Report_Entry" with
         | Json.arr _ => true
         | _ => false)
  | _ => false

/-- The HTTP status the access gate answers with, `none` when it lets the
request through to the handler. -/
def gateStatus : GateResult → Option Nat
  | GateResult.unauthorized => some 401
  | GateResult.forbidden => some 403
  | GateResult.proceed => none

-- ==============================
-- RECORD FIELD LEMMAS
-- ==============================

theorem getField_nil (k : String) : getField [] k = Json.null := rfl

theorem getField_cons (k' : String) (v' : Json) (l : Record) (k : String) :
    getField ((k', v') :: l) k = if (k' == k) = true then v' else getField l k := by
  by_cases h : (k' == k) = true
  · simp [getField, List.find?_cons_of_pos, h]
  · simp only [getField, List.find?_cons_of_neg, h]
    rw [List.find?_cons_of_neg]
    · simp
    · simp [h]

theorem hasField_cons (k' : String) (v' : Json) (l : Record) (k : String) :
    hasField ((k', v') :: l) k = ((k' == k) || hasField l k) := by
  simp [hasField]

theorem getField_eq_null_of_hasField (rec : Record) (k : String)
    (h : hasField rec k = false) : getField rec k = Json.null := by
  induction rec with
  | nil => rfl
  | cons p rest ih =>
      obtain ⟨k', v'⟩ := p
      rw [hasField_cons] at h
      rcases Bool.or_eq_false_iff.mp h with ⟨h1, h2⟩
      rw [getField_cons, if_neg (by simp [h1]), ih h2]

theorem getField_setField_self (rec : Record) (k : String) (v : Json) :
    getField (setField rec k v) k = v := by
  induction rec with
  | nil => simp [setField, getField_cons]
  | cons p rest ih =>
      obtain ⟨k', v'⟩ := p
      by_cases h : (k' == k) = true
      · simp [setField, h, getField_cons]
      · simp [setField, h, getField_cons, ih]

theorem getField_setField_ne (rec : Record) (k k' : String) (v : Json)
    (h : (k == k') = false) :
    getField (setField rec k v) k' = getField rec k' := by
  induction rec with
  | nil => simp [setField, getField_cons, h, getField_nil]
  | cons p rest ih =>
      obtain ⟨a, b⟩ := p
      by_cases hak : (a == k) = true
      · have hak' : a = k := by simpa using hak
        subst hak'
        simp [setField, getField_cons, h]
      · simp [setField, hak, getField_cons, ih]

theorem hasField_setField_self (rec : Record) (k : String) (v : Json) :
    hasField (setField rec k v) k = true := by
  induction rec with
  | nil => simp [setField, hasField_cons]
  | cons p rest ih =>
      obtain ⟨k', v'⟩ := p
      by_cases h : (k' == k) = true
      · simp [setField, h, hasField_cons]
      · simp [setField, h, hasField_cons, ih]

theorem hasField_setField_ne (rec : Record) (k k' : String) (v : Json)
    (h : (k == k') = false) :
    hasField (setField rec k v) k' = hasField rec k' := by
  induction rec with
  | nil => simp [setField, hasField_cons, h]
  | cons p rest ih =>
      obtain ⟨a, b⟩ := p
      by_cases hak : (a == k) = true
      · have hak' : a = k := by simpa using hak
        subst hak'
        simp [setField, hasField_cons, h]
      · simp [setField, hak, hasField_cons, ih]

theorem getField_updateRecord_of_not_has :
    ∀ (payload rec : Record) (k : String), hasField payload k = false →
      getField (updateRecord rec payload) k = getField rec k := by
  intro payload
  induction payload with
  | nil => intro rec k _; rfl
  | cons p rest ih =>
      intro rec k h
      obtain ⟨k0, v0⟩ := p
      rw [hasField_cons] at h
      rcases Bool.or_eq_false_iff.mp h with ⟨h1, h2⟩
      show getField (updateRecord (setField rec k0 v0) rest) k = getField rec k
      rw [ih _ _ h2, getField_setField_ne _ _ _ _ h1]

-- ==============================
-- KEY RESOLVER LEMMAS
-- ==============================

theorem find?_decompose {α : Type} (p : α → Bool) :
    ∀ (l : List α) (a : α), l.find? p = some a →
      ∃ pre post, l = pre ++ a :: post ∧ p a = true ∧ ∀ x ∈ pre, p x = false := by
  intro l
  induction l with
  | nil => intro a h; cases h
  | cons x xs ih =>
      intro a h
      by_cases hx : p x = true
      · rw [List.find?_cons_of_pos _ hx] at h
        cases h
        exact ⟨[], xs, rfl, hx, by intro y hy; cases hy⟩
      · rw [List.find?_cons_of_neg _ hx] at h
        obtain ⟨pre, post, heq, hpa, hpre⟩ := ih a h
        refine ⟨x :: pre, post, by rw [heq]; rfl, hpa, ?_⟩
        intro y hy
        rcases List.mem_cons.mp hy with rfl | hy'
        · exact eq_false_of_ne_true hx
        · exact hpre y hy'

/-- Characterization of the key resolver: either no candidate is present in
any record and the hardcoded default is returned, or the returned key is the
first candidate (in candidate-list order) present in some record. -/
theorem resolveKey_spec (entries : List Record) (candidates : List String) (d : String) :
    ((∀ k ∈ candidates, fieldPresent entries k = false)
        ∧ resolveKey entries candidates d = d)
    ∨ (∃ pre post, candidates = pre ++ resolveKey entries candidates d :: post
        ∧ fieldPresent entries (resolveKey entries candidates d) = true
        ∧ ∀ j ∈ pre, fieldPresent entries j = false) := by
  cases h : candidates.find? (fieldPresent entries) with
  | none =>
      left
      refine ⟨fun k hk => eq_false_of_ne_true (List.find?_eq_none.mp h k hk), ?_⟩
      simp [resolveKey, h]
  | some a =>
      right
      have hr : resolveKey entries candidates d = a := by simp [resolveKey, h]
      obtain ⟨pre, post, heq, hp, hpre⟩ := find?_decompose _ _ _ h
      exact ⟨pre, post, by rw [hr]; exact heq, by rw [hr]; exact hp, hpre⟩

-- ==============================
-- NORMALIZER LEMMAS
-- ==============================

theorem cleanTD_eq_or (rec : Record) :
    cleanTerminationDate rec = rec
    ∨ cleanTerminationDate rec = setField rec "Termination_Date" (Json.str "") := by
  unfold cleanTerminationDate
  split
  · right; rfl
  · split
    · right; rfl
    · left; rfl
  · left; rfl

theorem ensureIA_eq_or (rec : Record) :
    ensureIsActive rec = rec
    ∨ ensureIsActive rec = setField rec "IsActive" (Json.str "true") := by
  unfold ensureIsActive
  split
  · right; rfl
  · split
    · right; rfl
    · split
      · right; rfl
      · left; rfl
    · left; rfl

theorem cleanTD_of_not_bad (rec : Record) (h : badTerminationDate rec = false) :
    cleanTerminationDate rec = rec := by
  unfold badTerminationDate at h
  unfold cleanTerminationDate
  cases hg : getField rec "Termination_Date" with
  | null => rw [hg] at h; simp at h
  | str s => rw [hg] at h; simp at h; simp [h]
  | bool b => rfl
  | num n => rfl
  | arr xs => rfl
  | obj fs => rfl

theorem cleanTD_of_bad (rec : Record) (h : badTerminationDate rec = true) :
    cleanTerminationDate rec = setField rec "Termination_Date" (Json.str "") := by
  unfold badTerminationDate at h
  unfold cleanTerminationDate
  cases hg : getField rec "Termination_Date" with
  | null => rfl
  | str s => rw [hg] at h; simp at h; simp [h]
  | bool b => rw [hg] at h; simp at h
  | num n => rw [hg] at h; simp at h
  | arr xs => rw [hg] at h; simp at h
  | obj fs => rw [hg] at h; simp at h

theorem badTD_cleanTD (rec : Record) :
    badTerminationDate (cleanTerminationDate rec) = false := by
  by_cases h : badTerminationDate rec = true
  · rw [cleanTD_of_bad rec h]
    unfold badTerminationDate
    rw [getField_setField_self]
    simp
  · rw [cleanTD_of_not_bad rec (eq_false_of_ne_true h)]
    exact eq_false_of_ne_true h

theorem ensureIA_of_not_bad (rec : Record) (h : badIsActive rec = false) :
    ensureIsActive rec = rec := by
  unfold badIsActive at h
  rcases Bool.or_eq_false_iff.mp h with ⟨h1, h2⟩
  have hhas : hasField rec "IsActive" = true := by
    cases hh : hasField rec "IsActive" <;> simp [hh] at h1 ⊢
  unfold ensureIsActive
  rw [hhas]
  cases hg : getField rec "IsActive" with
  | null => rw [hg] at h2; simp at h2
  | str s => rw [hg] at h2; simp at h2; simp [h2]
  | bool b => rfl
  | num n => rfl
  | arr xs => rfl
  | obj fs => rfl

theorem ensureIA_of_bad (rec : Record) (h : badIsActive rec = true) :
    ensureIsActive rec = setField rec "IsActive" (Json.str "true") := by
  unfold badIsActive at h
  unfold ensureIsActive
  cases hh : hasField rec "IsActive" with
  | false => simp
  | true =>
      rw [hh] at h
      simp only [hh, Bool.not_true, Bool.false_or] at h ⊢
      cases hg : getField rec "IsActive" with
      | null => rfl
      | str s => rw [hg] at h; simp at h; simp [h]
      | bool b => rw [hg] at h; simp at h
      | num n => rw [hg] at h; simp at h
      | arr xs => rw [hg] at h; simp at h
      | obj fs => rw [hg] at h; simp at h

theorem badIA_ensureIA (rec : Record) :
    badIsActive (ensureIsActive rec) = false := by
  by_cases h : badIsActive rec = true
  · rw [ensureIA_of_bad rec h]
    unfold badIsActive
    rw [getField_setField_self, hasField_setField_self]
    simp
  · rw [ensureIA_of_not_bad rec (eq_false_of_ne_true h)]
    exact eq_false_of_ne_true h

theorem badTD_ensureIA (rec : Record) :
    badTerminationDate (ensureIsActive rec) = badTerminationDate rec := by
  rcases ensureIA_eq_or rec with h | h <;> rw [h]
  unfold badTerminationDate
  rw [getField_setField_ne _ _ _ _ (by decide)]

theorem badIA_cleanTD (rec : Record) :
    badIsActive (cleanTerminationDate rec) = badIsActive rec := by
  rcases cleanTD_eq_or rec with h | h <;> rw [h]
  unfold badIsActive
  rw [getField_setField_ne _ _ _ _ (by decide),
      hasField_setField_ne _ _ _ _ (by decide)]

theorem shapeRecord_idem (c i : Bool) (rec : Record) :
    shapeRecord c i (shapeRecord c i rec) = shapeRecord c i rec := by
  cases c <;> cases i <;> unfold shapeRecord <;> simp
  · exact ensureIA_of_not_bad _ (badIA_ensureIA rec)
  · exact cleanTD_of_not_bad _ (badTD_cleanTD rec)
  · have h1 : badTerminationDate (ensureIsActive (cleanTerminationDate rec)) = false := by
      rw [badTD_ensureIA]; exact badTD_cleanTD rec
    rw [cleanTD_of_not_bad _ h1, ensureIA_of_not_bad _ (badIA_ensureIA _)]

-- ==============================
-- CRUD LEMMAS
-- ==============================

theorem putEntries_eq_none_iff (key eid : String) (payload : Record) :
    ∀ entries : List Record,
      (putEntries key eid payload entries = none
        ↔ entries.any (matchKey key eid) = false) := by
  intro entries
  induction entries with
  | nil => simp [putEntries]
  | cons rec rest ih =>
      by_cases h : matchKey key eid rec = true
      · simp [putEntries, h]
      · have h' : matchKey key eid rec = false := eq_false_of_ne_true h
        simp only [putEntries, h', Bool.false_eq_true, if_false, List.any_cons,
          Bool.or_eq_false_iff]
        cases hh : putEntries key eid payload rest with
        | none =>
            simp [hh] at ih
            simp [hh, h']
            exact ih
        | some l =>
            simp [hh] at ih
            simp [hh, h']
            exact ih

theorem putEntries_first (key eid : String) (payload : Record) (rec : Record)
    (post : List Record) :
    ∀ pre : List Record, (∀ r ∈ pre, matchKey key eid r = false) →
      matchKey key eid rec = true →
      putEntries key eid payload (pre ++ rec :: post)
        = some (pre ++ updateRecord rec payload :: post) := by
  intro pre
  induction pre with
  | nil => intro _ hrec; simp [putEntries, hrec]
  | cons p pre' ih =>
      intro hpre hrec
      have hp : matchKey key eid p = false := hpre p (List.mem_cons_self p pre')
      have ih' := ih (fun r hr => hpre r (List.mem_cons_of_mem p hr)) hrec
      simp [putEntries, hp, ih']

theorem matchKey_of_not_has (key : String) (rec : Record)
    (h : hasField rec key = false) :
    matchKey key "None" rec = true := by
  unfold matchKey
  rw [getField_eq_null_of_hasField rec key h]
  rfl

-- ==============================
-- CLAIM THEOREMS
-- ==============================

/-- **C1** — counterexample. The claim says that when no candidate field is
present in any record (in particular on an empty record sequence), key
resolution returns the *last* candidate. At the contractor call site the
candidate list is `["employeeID", "Worker_ID", "contractorID"]`, whose last
element is `"contractorID"`, yet resolution over the empty record sequence
returns the hardcoded default `"employeeID"`. -/
theorem keyResolver_fallback_counterexample :
    contractorKeyName [] = "employeeID"
    ∧ contractorCandidates.getLast? = some "contractorID"
    ∧ ("employeeID" : String) ≠ "contractorID" :=
  ⟨rfl, rfl, by decide⟩

/-- **C1** — amended. For the two key-resolution call sites (contractors and
conversion): if some candidate field is present in some record, the resolver
returns the first present candidate in candidate-list order; if none is
present, it returns the hardcoded default — which at both call sites is the
*first* candidate of the list, not the last. -/
theorem keyResolver_fallback_amended (entries : List Record) :
    (((∀ k ∈ contractorCandidates, fieldPresent entries k = false)
        ∧ contractorKeyName entries = "employeeID")
      ∨ (∃ pre post, contractorCandidates = pre ++ contractorKeyName entries :: post
          ∧ fieldPresent entries (contractorKeyName entries) = true
          ∧ ∀ j ∈ pre, fieldPresent entries j = false))
    ∧ (((∀ k ∈ conversionCandidates, fieldPresent entries k = false)
        ∧ conversionKeyName entries = "contractorID")
      ∨ (∃ pre post, conversionCandidates = pre ++ conversionKeyName entries :: post
          ∧ fieldPresent entries (conversionKeyName entries) = true
          ∧ ∀ j ∈ pre, fieldPresent entries j = false))
    ∧ contractorCandidates.head? = some "employeeID"
    ∧ conversionCandidates.head? = some "contractorID" :=
  ⟨resolveKey_spec entries contractorCandidates "employeeID",
   resolveKey_spec entries conversionCandidates "contractorID", rfl, rfl⟩

/-- **C2** — counterexample. The claim says the identifying key field of
*every* collection is chosen dynamically per request by testing candidate
fields against the loaded records. For the employees collection the key is
the compile-time constant `"Worker_ID"`: there is a single key that the
choice function returns for every record sequence, so it *is* statically
fixed. -/
theorem keyField_dynamic_counterexample :
    ∃ k : String, ∀ entries : List Record, employeeKeyName entries = k :=
  ⟨"Worker_ID", fun _ => rfl⟩

/-- **C2** — amended. For the contractors and conversion collections the key
field is resolved dynamically per request: it is the first candidate of the
collection's prioritized list present in some loaded record, or the
hardcoded default when none is. For the employees collection the key field
is statically fixed to `"Worker_ID"`, ignoring the loaded records. -/
theorem keyField_dynamic_amended :
    (∀ entries : List Record,
      ((∀ k ∈ contractorCandidates, fieldPresent entries k = false)
          ∧ contractorKeyName entries = "employeeID")
        ∨ (∃ pre post, contractorCandidates = pre ++ contractorKeyName entries :: post
            ∧ fieldPresent entries (contractorKeyName entries) = true
            ∧ ∀ j ∈ pre, fieldPresent entries j = false))
    ∧ (∀ entries : List Record,
      ((∀ k ∈ conversionCandidates, fieldPresent entries k = false)
          ∧ conversionKeyName entries = "contractorID")
        ∨ (∃ pre post, conversionCandidates = pre ++ conversionKeyName entries :: post
            ∧ fieldPresent entries (conversionKeyName entries) = true
            ∧ ∀ j ∈ pre, fieldPresent entries j = false))
    ∧ (∀ entries : List Record, employeeKeyName entries = "Worker_ID") :=
  ⟨fun entries => resolveKey_spec entries contractorCandidates "employeeID",
   fun entries => resolveKey_spec entries conversionCandidates "contractorID",
   fun _ => rfl⟩

/-- **C3** — counterexample. The claim's round-trip quantifies over every
mapping whose `"Report_Entry"` field holds a list. For the document
`{"Report_Entry": [], "x": null}` — such a mapping — unwrap keeps only the
entry list and the wrapper key, so rewrap returns `{"Report_Entry": []}`,
which drops the `"x"` field: the round-trip fails. -/
theorem envelope_roundtrip_counterexample :
    rewrap
        (extract_entries (Json.obj [("Report_Entry", Json.arr []), ("x", Json.null)])).1
        (extract_entries (Json.obj [("Report_Entry", Json.arr []), ("x", Json.null)])).2
      ≠ Json.obj [("Report_Entry", Json.arr []), ("x", Json.null)] := by
  intro h
  have h' : Json.obj [("Report_Entry", Json.arr [])]
      = Json.obj [("Report_Entry", Json.arr []), ("x", Json.null)] := h
  simp at h'

/-- **C3** — amended. Round-trip holds for the two exactly-invertible shapes:
a bare list, and a mapping whose *only* field is `"Report_Entry"` holding a
list. A mapping with additional fields beside the wrapper field is unwrapped
to its entry list and wrapper key, losing the extra fields. A document of
any shape not recognized (neither a list nor a mapping containing
`"Report_Entry"` bound to a list) unwraps to the empty sequence with no
wrapper key — a lossy fallback, not an error. -/
theorem envelope_roundtrip_amended (xs : List Json) (d : Json) :
    (rewrap (extract_entries (Json.arr xs)).1 (extract_entries (Json.arr xs)).2
        = Json.arr xs)
    ∧ (rewrap (extract_entries (Json.obj [("Report_Entry", Json.arr xs)])).1
          (extract_entries (Json.obj [("Report_Entry", Json.arr xs)])).2
        = Json.obj [("Report_Entry", Json.arr xs)])
    ∧ (∀ (fs : List (String × Json)) (ys : List Json),
        getField fs "Report_Entry" = Json.arr ys →
        extract_entries (Json.obj fs) = (ys, some "Report_Entry"))
    ∧ (recognizedShape d = false → extract_entries d = ([], none)) := by
  refine ⟨rfl, rfl, ?_, ?_⟩
  · intro fs ys hg
    have hh : hasField fs "Report_Entry" = true := by
      cases h : hasField fs "Report_Entry" with
      | true => rfl
      | false =>
          rw [getField_eq_null_of_hasField fs _ h] at hg
          cases hg
    show (if hasField fs "Report_Entry" then
        match getField fs "Report_Entry" with
        | Json.arr zs => (zs, some "Report_Entry")
        | _ => (([] : List Json), (none : Option String))
      else ([], none)) = (ys, some "Report_Entry")
    simp [hh, hg]
  · intro h
    cases d with
    | arr ys => simp [recognizedShape] at h
    | obj fs =>
        simp only [recognizedShape] at h
        show (if hasField fs "Report_Entry" then
            match getField fs "Report_Entry" with
            | Json.arr xs => (xs, some "Report_Entry")
            | _ => (([] : List Json), (none : Option String))
          else ([], none)) = ([], none)
        cases hh : hasField fs "Report_Entry" with
        | false => simp [hh]
        | true =>
            rw [hh] at h
            simp only [Bool.true_and] at h
            cases hg : getField fs "Report_Entry" with
            | arr ys => rw [hg] at h; simp at h
            | null => simp [hh, hg]
            | bool b => simp [hh, hg]
            | num n => simp [hh, hg]
            | str s => simp [hh, hg]
            | obj gs => simp [hh, hg]
    | null => rfl
    | bool b => rfl
    | num n => rfl
    | str s => rfl

/-- **C4** — confirmed. For every PUT on every collection (all three route
through `putH` with their resolved key): when no record's key value
string-equals the path identifier, the handler answers 404 and performs no
save; when some record matches, the first matching record receives a shallow
merge of the payload (fields not named in the payload keep their values),
the records before it and after it are untouched, and the rewrapped document
is persisted with status 200. No record is ever created implicitly: the
404 branch writes nothing. -/
theorem update_semantics (key eid : String) (entries : List Record)
    (wk : Option String) (payload : Record) :
    (entries.any (matchKey key eid) = false →
        putH key entries wk eid payload = ⟨404, none⟩)
    ∧ (∀ pre rec post, entries = pre ++ rec :: post →
        (∀ r ∈ pre, matchKey key eid r = false) → matchKey key eid rec = true →
        putH key entries wk eid payload
          = ⟨200, some (docOfRecords (pre ++ updateRecord rec payload :: post) wk)⟩)
    ∧ (∀ rec k, hasField payload k = false →
        getField (updateRecord rec payload) k = getField rec k)
    ∧ employeePut entries wk eid payload
        = putH (employeeKeyName entries) entries wk eid payload
    ∧ contractorPut entries wk eid payload
        = putH (contractorKeyName entries) entries wk eid payload
    ∧ conversionPut entries wk eid payload
        = putH (conversionKeyName entries) entries wk eid payload := by
  refine ⟨?_, ?_, ?_, rfl, rfl, rfl⟩
  · intro h
    unfold putH
    rw [(putEntries_eq_none_iff key eid payload entries).mpr h]
  · intro pre rec post heq hpre hrec
    unfold putH
    subst heq
    rw [putEntries_first key eid payload rec post pre hpre hrec]
  · intro rec k h
    exact getField_updateRecord_of_not_has payload rec k h

/-- **C5** — confirmed. For every DELETE on every collection (all three route
through `deleteH` with their resolved key): every record whose key value
string-equals the path identifier is removed and every other record is kept;
when at least one record matches, the filtered sequence is persisted with
status 200; when none matches, the handler answers 404 and performs no
save. -/
theorem delete_semantics (key eid : String) (entries : List Record)
    (wk : Option String) :
    (entries.any (matchKey key eid) = false →
        deleteH key entries wk eid = ⟨404, none⟩)
    ∧ (entries.any (matchKey key eid) = true →
        deleteH key entries wk eid
          = ⟨200, some (docOfRecords
              (entries.filter (fun r => !matchKey key eid r)) wk)⟩)
    ∧ (∀ r ∈ entries.filter (fun r => !matchKey key eid r),
        matchKey key eid r = false)
    ∧ (∀ r ∈ entries, matchKey key eid r = false →
        r ∈ entries.filter (fun r => !matchKey key eid r))
    ∧ employeeDelete entries wk eid = deleteH (employeeKeyName entries) entries wk eid
    ∧ contractorDelete entries wk eid = deleteH (contractorKeyName entries) entries wk eid
    ∧ conversionDelete entries wk eid = deleteH (conversionKeyName entries) entries wk eid := by
  refine ⟨?_, ?_, ?_, ?_, rfl, rfl, rfl⟩
  · intro h
    have hall : ∀ r ∈ entries, (!matchKey key eid r) = true := by
      intro r hr
      have hr' := List.any_eq_false.mp h r hr
      simpa using hr'
    unfold deleteH
    rw [List.filter_eq_self.mpr hall]
    simp
  · intro h
    obtain ⟨x, hx, hpx⟩ := List.any_eq_true.mp h
    have hlt : (entries.filter (fun r => !matchKey key eid r)).length
        < entries.length :=
      List.length_filter_lt_length_iff_exists.mpr ⟨x, hx, by simp [hpx]⟩
    have hcond : ((entries.filter (fun r => !matchKey key eid r)).length
        != entries.length) = true := by
      simp only [bne_iff_ne, ne_eq]
      exact Nat.ne_of_lt hlt
    unfold deleteH
    simp only [hcond, if_true]
  · intro r hr
    have := (List.mem_filter.mp hr).2
    simpa using this
  · intro r hr hm
    exact List.mem_filter.mpr ⟨hr, by simp [hm]⟩

theorem getField_TD_ensureIA (rec : Record) :
    getField (ensureIsActive rec) "Termination_Date"
      = getField rec "Termination_Date" := by
  rcases ensureIA_eq_or rec with h | h <;> rw [h]
  rw [getField_setField_ne _ _ _ _ (by decide)]

/-- **C6** — confirmed. On GET of the employees or contractors collection the
records are shaped — a `Termination_Date` that is absent, null, or `"NA"`
comes back as the empty string, an `IsActive` that is absent, null, or empty
comes back as the string `"true"` — while the conversion collection is
returned exactly as extracted. The spec's concrete scenario evaluates to the
spec's expected document. -/
theorem normalization_on_read (entries : List Record) (wk : Option String) :
    (∀ rec : Record,
        (hasField rec "Termination_Date" = false
          ∨ getField rec "Termination_Date" = Json.null
          ∨ getField rec "Termination_Date" = Json.str "NA") →
        getField (shapeRecord AUTO_CLEAN_TERMINATION_DATE AUTO_ENSURE_ISACTIVE rec)
            "Termination_Date" = Json.str "")
    ∧ (∀ rec : Record,
        (hasField rec "IsActive" = false
          ∨ getField rec "IsActive" = Json.null
          ∨ getField rec "IsActive" = Json.str "") →
        getField (shapeRecord AUTO_CLEAN_TERMINATION_DATE AUTO_ENSURE_ISACTIVE rec)
            "IsActive" = Json.str "true")
    ∧ employeesGet entries wk
        = docOfRecords (normalize_for_saviynt true true entries) wk
    ∧ contractorsGet entries wk
        = docOfRecords (normalize_for_saviynt true true entries) wk
    ∧ (∀ (es : List Json) (w : Option String), conversionGet es w = rewrap es w)
    ∧ employeesGet [[("Worker_ID", Json.str "1"), ("Termination_Date", Json.str "NA")]]
        (some "Report_Entry")
      = Json.obj [("Report_Entry", Json.arr [Json.obj
          [("Worker_ID", Json.str "1"), ("Termination_Date", Json.str ""),
           ("IsActive", Json.str "true")]])] := by
  refine ⟨?_, ?_, rfl, rfl, fun _ _ => rfl, rfl⟩
  · intro rec htd
    have hbad : badTerminationDate rec = true := by
      unfold badTerminationDate
      rcases htd with h | h | h
      · rw [getField_eq_null_of_hasField rec _ h]
      · rw [h]
      · rw [h]; simp
    show getField (ensureIsActive (cleanTerminationDate rec)) "Termination_Date"
      = Json.str ""
    rw [getField_TD_ensureIA, cleanTD_of_bad rec hbad, getField_setField_self]
  · intro rec hia
    have hbad : badIsActive rec = true := by
      unfold badIsActive
      rcases hia with h | h | h
      · rw [h]; simp
      · rw [h]; simp
      · rw [h]; simp
    show getField (ensureIsActive (cleanTerminationDate rec)) "IsActive"
      = Json.str "true"
    have hbad' : badIsActive (cleanTerminationDate rec) = true := by
      rw [badIA_cleanTD]; exact hbad
    rw [ensureIA_of_bad _ hbad', getField_setField_self]

/-- **C7** — confirmed. For every setting of the two configuration toggles
and every record sequence, normalizing twice equals normalizing once. -/
theorem normalize_idempotent (c i : Bool) (entries : List Record) :
    normalize_for_saviynt c i (normalize_for_saviynt c i entries)
      = normalize_for_saviynt c i entries := by
  unfold normalize_for_saviynt
  rw [List.map_map]
  exact List.map_congr_left (fun r _ => shapeRecord_idem c i r)

/-- **C8** — confirmed. For every request: when neither the
`Authorization: Bearer` header nor the `access_token` query fallback yields a
token, the gate answers 401; when a token is extracted but differs from the
configured token, 403; when the extracted token equals the configured token,
the request proceeds to the handler. -/
theorem access_gate (a : String) (q : Option String) :
    (extractToken a q = none → gateStatus (require_token a q) = some 401)
    ∧ (∀ t, extractToken a q = some t → t ≠ ACCESS_TOKEN →
        gateStatus (require_token a q) = some 403)
    ∧ (extractToken a q = some ACCESS_TOKEN →
        gateStatus (require_token a q) = none) := by
  refine ⟨?_, ?_, ?_⟩
  · intro h
    unfold require_token
    rw [h]
    rfl
  · intro t h ht
    unfold require_token
    rw [h]
    have hb : (t == ACCESS_TOKEN) = false := by simpa using ht
    simp [hb, gateStatus]
  · intro h
    unfold require_token
    rw [h]
    simp [gateStatus]

/-- **C9** — confirmed. For every POST: an absent or malformed body parses
silently to the empty record; the parsed record is appended at the end of
the entry sequence; the appended sequence is persisted rewrapped under the
original wrapper key (so extracting the saved document yields exactly the
old entries plus the new one); and the response carries the created record
with status 201. -/
theorem create_semantics (entries : List Json) (wk : Option String)
    (body : Option Json) :
    postH entries wk body
      = (201, rewrap (entries ++ [parseBody body]) wk, parseBody body)
    ∧ (body = none → parseBody body = Json.obj [])
    ∧ ((wk = none ∨ wk = some "Report_Entry") →
        extract_entries (postH entries wk body).2.1
          = (entries ++ [parseBody body], wk)) := by
  refine ⟨rfl, ?_, ?_⟩
  · intro h
    rw [h]
    rfl
  · rintro (rfl | rfl)
    · rfl
    · rfl

theorem putH_status_of_match (key eid : String) (entries : List Record)
    (wk : Option String) (payload : Record)
    (h : entries.any (matchKey key eid) = true) :
    (putH key entries wk eid payload).status = 200 := by
  cases hh : putEntries key eid payload entries with
  | none =>
      rw [putEntries_eq_none_iff key eid payload entries] at hh
      rw [hh] at h
      cases h
  | some l =>
      unfold putH
      rw [hh]

theorem deleteH_status_of_match (key eid : String) (entries : List Record)
    (wk : Option String)
    (h : entries.any (matchKey key eid) = true) :
    (deleteH key entries wk eid).status = 200 := by
  obtain ⟨x, hx, hpx⟩ := List.any_eq_true.mp h
  have hlt : (entries.filter (fun r => !matchKey key eid r)).length
      < entries.length :=
    List.length_filter_lt_length_iff_exists.mpr ⟨x, hx, by simp [hpx]⟩
  have hcond : ((entries.filter (fun r => !matchKey key eid r)).length
      != entries.length) = true := by
    simp only [bne_iff_ne, ne_eq]
    exact Nat.ne_of_lt hlt
  unfold deleteH
  simp only [hcond, if_true]

/-- **C10** — confirmed. Matching stringifies the record's key lookup, and a
record without the key field looks up as Python `None`, whose string form is
`"None"`. So for every collection key, a record lacking the key field
matches the path identifier `"None"`: a PUT with identifier `"None"` finds a
match (status 200, not 404), and a DELETE with identifier `"None"` succeeds
and removes every keyless record rather than answering NotFound. -/
theorem none_identifier (key : String) (rec : Record) (entries : List Record)
    (wk : Option String) (payload : Record)
    (hmem : rec ∈ entries) (hno : hasField rec key = false) :
    matchKey key "None" rec = true
    ∧ (deleteH key entries wk "None").status = 200
    ∧ rec ∉ entries.filter (fun r => !matchKey key "None" r)
    ∧ (putH key entries wk "None" payload).status = 200 := by
  have hm : matchKey key "None" rec = true := matchKey_of_not_has key rec hno
  have hany : entries.any (matchKey key "None") = true :=
    List.any_eq_true.mpr ⟨rec, hmem, hm⟩
  refine ⟨hm, deleteH_status_of_match key "None" entries wk hany, ?_,
    putH_status_of_match key "None" entries wk payload hany⟩
  intro hr
  have := (List.mem_filter.mp hr).2
  rw [hm] at this
  cases this

/-- **C10** — witness: a concrete record with no `"Worker_ID"` field matches
the identifier `"None"`, is deleted by `DELETE .../None`, and makes
`PUT .../None` succeed. -/
theorem none_identifier_witness :
    matchKey "Worker_ID" "None" [("x", Json.num 1)] = true
    ∧ (deleteH "Worker_ID" [[("x", Json.num 1)]] none "None").status = 200
    ∧ [("x", Json.num 1)] ∉ ([[("x", Json.num 1)]] : List Record).filter
        (fun r => !matchKey "Worker_ID" "None" r)
    ∧ (putH "Worker_ID" [[("x", Json.num 1)]] none "None" []).status = 200 :=
  none_identifier "Worker_ID" [("x", Json.num 1)] [[("x", Json.num 1)]] none []
    (by simp) rfl
